import Mathlib

/-!
Shallow embedding of the Feishu gateway (`src/core/gateway.ts` of
clawdbot-plugin-feishu) and proofs about its deduplication cache, event
dispatch table, and start/stop lifecycle.

The JavaScript `Set<string>` holding processed message ids is modelled as a
`List String` in insertion order (oldest first), which is exactly the
iteration order of a JS `Set`.  Optional values (`string | undefined`) are
modelled as `Option String`; JS truthiness of such a value (`undefined` and
`""` are falsy) is modelled by `optTruthy`.
-/

namespace FeishuGateway

/-- Maximum number of processed message ids kept in the dedup cache
(`MAX_PROCESSED_MESSAGES` in `src/core/gateway.ts`, line 35). -/
def MAX_PROCESSED_MESSAGES : Nat := 5000

/-- JS truthiness of a `string | undefined` value: `undefined` and the empty
string are falsy, every other string is truthy. -/
def optTruthy : Option String → Bool
  | none => false
  | some s => s != ""

/-- JS `Set.add`: appends the element at the end of the insertion order when
absent; when the element is already present the set (and its insertion
order) is unchanged. -/
def setAdd (id : String) (c : List String) : List String :=
  if id ∈ c then c else c ++ [id]

/-- Lines 101-104 of `gateway.ts`: when the cache size exceeds
`MAX_PROCESSED_MESSAGES`, take `oldest = values().next().value` (the first
element in insertion order, `undefined` on an empty set) and run
`if (oldest) delete(oldest)` — the delete is skipped when `oldest` is falsy
(absent, or the empty string). -/
def evictOldestIfOver (c : List String) : List String :=
  if MAX_PROCESSED_MESSAGES < c.length then
    match c with
    | [] => []
    | h :: t => if h = "" then h :: t else t
  else c

/-- Lines 99-104 of `gateway.ts`: `processedMessages.add(messageId)` followed
by the capacity eviction. -/
def recordMessage (id : String) (c : List String) : List String :=
  evictOldestIfOver (setAdd id c)

/-- Lines 98-105 of `gateway.ts`: the whole `if (messageId) { add; evict }`
block, taking the possibly-absent `event.message?.message_id`. -/
def trackProcessed (mid : Option String) (c : List String) : List String :=
  if optTruthy mid then recordMessage (mid.getD "") c else c

/-- Folding the tracking block over a sequence of (possibly absent) message
ids, as repeated deliveries would do within one session. -/
def trackAll (mids : List (Option String)) (c : List String) : List String :=
  mids.foldl (fun s m => trackProcessed m s) c

/-- Folding `recordMessage` over a sequence of (present, truthy) message ids. -/
def recordAll (ids : List String) (c : List String) : List String :=
  ids.foldl (fun s i => recordMessage i s) c

/-- A message-received event payload; `message_id` models the optional chain
`event.message?.message_id`. -/
structure MsgEvent where
  message_id : Option String
deriving DecidableEq

/-- The four event types registered in the dispatch table
(lines 85-140 of `gateway.ts`). -/
inductive GwEvent where
  | messageReceive (e : MsgEvent)
  | messageRead
  | botAdded (chat_id : String)
  | botRemoved (chat_id : String)
deriving DecidableEq

/-- Observable effects of dispatching one event: log lines, error-log lines
(an error caught by the `try/catch` of a dispatch entry), recording a message
id in the dedup cache, and invoking the external `handleMessage` handler. -/
inductive Action where
  | log (msg : String)
  | errorLog (msg : String)
  | recorded (id : String)
  | invokeHandler (e : MsgEvent)
deriving DecidableEq

/-- Environment for dispatch: which message events make the external
`handleMessage` collaborator throw (reject). -/
structure DispatchEnv where
  handlerFails : MsgEvent → Bool

/-- The `im.message.receive_v1` dispatch entry (lines 86-117 of
`gateway.ts`): dedup check, tracking block, `await handleMessage(...)`, all
inside a `try/catch` that turns a handler throw into an error log. -/
def dispatchMessageReceived (env : DispatchEnv) (e : MsgEvent) (c : List String) :
    List String × List Action :=
  if optTruthy e.message_id = true ∧ e.message_id.getD "" ∈ c then
    (c, [.log ("Gateway: skipping duplicate message " ++ e.message_id.getD "")])
  else
    let c' := trackProcessed e.message_id c
    let pre : List Action :=
      if optTruthy e.message_id then [.recorded (e.message_id.getD "")] else []
    (c', pre ++ [.invokeHandler e] ++
      (if env.handlerFails e then [.errorLog "Gateway: error handling message"] else []))

/-- The full dispatch table (lines 85-140): read receipts are ignored,
bot-added/removed only log. -/
def dispatchEvent (env : DispatchEnv) (ev : GwEvent) (c : List String) :
    List String × List Action :=
  match ev with
  | .messageReceive e => dispatchMessageReceived env e c
  | .messageRead => (c, [])
  | .botAdded cid => (c, [.log ("Gateway: bot added to chat " ++ cid)])
  | .botRemoved cid => (c, [.log ("Gateway: bot removed from chat " ++ cid)])

/-- Sequential delivery of a list of events within one session. -/
def processEvents (env : DispatchEnv) (evs : List GwEvent) (c : List String) :
    List String × List Action :=
  match evs with
  | [] => (c, [])
  | ev :: rest =>
      let r := dispatchEvent env ev c
      let r' := processEvents env rest r.1
      (r'.1, r.2 ++ r'.2)

/-- The message events passed to the external message handler, in order. -/
def invocations (as : List Action) : List MsgEvent :=
  as.filterMap fun a =>
    match a with
    | .invokeHandler e => some e
    | _ => none

/-- How many times the external message handler was invoked. -/
def invocationCount (as : List Action) : Nat :=
  (invocations as).length

/-- How many times a message id was recorded in the dedup cache. -/
def recordedCount (as : List Action) : Nat :=
  (as.filterMap fun a =>
    match a with
    | .recorded i => some i
    | _ => none).length

/-- The process-wide gateway state (lines 22-42 of `gateway.ts`), polymorphic
in the history-entry type, which the gateway never inspects.  The connection
handle is modelled as `Option Unit`: the gateway only stores, compares and
clears it. -/
structure GatewayState (H : Type) where
  botOpenId : Option String
  wsClient : Option Unit
  chatHistories : List (String × List H)
  processedMessages : List String
deriving DecidableEq

/-- The initial module-level state (lines 37-42). -/
def initialState (H : Type) : GatewayState H :=
  { botOpenId := none, wsClient := none, chatHistories := [], processedMessages := [] }

/-- Lines 47-49: `getBotOpenId` reads the current bot open id. -/
def getBotOpenId {H : Type} (s : GatewayState H) : Option String :=
  s.botOpenId

/-- Lines 197-202: `stopGateway` synchronously nulls the connection handle,
clears the bot identity, and empties the history map and the dedup cache. -/
def stopGateway {H : Type} (s : GatewayState H) : GatewayState H :=
  { s with
    wsClient := none
    botOpenId := none
    chatHistories := []
    processedMessages := [] }

/-- Result of the external `probeConnection` collaborator. -/
structure ProbeResult where
  ok : Bool
  botOpenId : Option String
deriving DecidableEq

/-- Channel configuration (`cfg.channels?.feishu`).  Modelled from the spec:
the config schema file is not part of the analysed sources; per the spec a
configuration carries a connection mode ("websocket" or another mode such as
"webhook").  `startGateway` itself never reads this field. -/
structure Cfg where
  mode : String
deriving DecidableEq

/-- Environment of one `startGateway` call: the optional channel config, what
the prober returns, whether the abort signal is already aborted when checked
(`abortSignal?.aborted`; `false` also covers an absent signal), and whether
`wsClient.start` throws synchronously (with which message). -/
structure StartEnv where
  feishuCfg : Option Cfg
  probe : ProbeResult
  aborted : Bool
  startThrows : Bool
  startError : String
deriving DecidableEq

/-- Which external collaborators a `startGateway` call invoked. -/
structure CallTrace where
  probeCalled : Bool
  factoryCalled : Bool
  wsStartCalled : Bool
deriving DecidableEq

/-- How the promise returned by `startGateway` settles: rejected with an
error message, resolved, or still pending (the long-lived running state). -/
inductive StartOutcome where
  | rejected (msg : String)
  | resolved
  | pending
deriving DecidableEq

/-- Boolean test for the rejected outcome. -/
def isRejected : StartOutcome → Bool
  | .rejected _ => true
  | _ => false

/-- Lines 59-192 of `gateway.ts`: the control flow of `startGateway` up to
the point where its promise settles (or stays pending).  In order: throw
`"Feishu not configured"` when the channel config is absent; await
`probeConnection` and store the bot open id when the probe is ok; call
`createWsClient` and store the handle; inside the returned promise, if the
abort signal is already aborted run `cleanup()` (clearing the stored handle)
and resolve; otherwise call `wsClient.start`, which on a synchronous throw
leads to `cleanup()` and a rejection with the thrown error; otherwise the
promise stays pending until the abort signal fires. -/
def startGateway {H : Type} (s : GatewayState H) (env : StartEnv) :
    GatewayState H × StartOutcome × CallTrace :=
  match env.feishuCfg with
  | none => (s, .rejected "Feishu not configured", ⟨false, false, false⟩)
  | some _ =>
      let s1 := if env.probe.ok then { s with botOpenId := env.probe.botOpenId } else s
      let s2 := { s1 with wsClient := some () }
      if env.aborted then
        ({ s2 with wsClient := none }, .resolved, ⟨true, true, false⟩)
      else if env.startThrows then
        ({ s2 with wsClient := none }, .rejected env.startError, ⟨true, true, true⟩)
      else
        (s2, .pending, ⟨true, true, true⟩)

/-! Invariant lemmas for the dedup cache. -/

/-- A single `recordMessage` on a non-empty id preserves distinctness,
absence of the empty string, and the capacity bound. -/
lemma recordMessage_inv (id : String) (c : List String)
    (hid : id ≠ "") (hnd : c.Nodup) (hne : "" ∉ c)
    (hlen : c.length ≤ MAX_PROCESSED_MESSAGES) :
    (recordMessage id c).Nodup ∧ "" ∉ recordMessage id c ∧
      (recordMessage id c).length ≤ MAX_PROCESSED_MESSAGES := by
  by_cases hmem : id ∈ c
  · have hnlt : ¬ MAX_PROCESSED_MESSAGES < c.length := Nat.not_lt.mpr hlen
    simp [recordMessage, setAdd, evictOldestIfOver, hmem, hnlt]
    exact ⟨hnd, hne, hlen⟩
  · by_cases hc : c.length = MAX_PROCESSED_MESSAGES
    · match c, hc with
      | hC :: tC, hc =>
        have hHC : hC ≠ "" := fun h => hne (h ▸ List.mem_cons_self hC tC)
        have hadd : setAdd id (hC :: tC) = hC :: (tC ++ [id]) := by
          simp [setAdd, hmem]
        have hlt : MAX_PROCESSED_MESSAGES < tC.length + 1 + 1 := by
          simp at hc; omega
        have hrec : recordMessage id (hC :: tC) = tC ++ [id] := by
          rw [recordMessage, hadd]
          simp [evictOldestIfOver, hlt, hHC]
        rw [hrec]
        have hndt : tC.Nodup := (List.nodup_cons.mp hnd).2
        have hmemt : id ∉ tC := fun h => hmem (List.mem_cons_of_mem _ h)
        refine ⟨?_, ?_, ?_⟩
        · simp [List.nodup_append, hndt, hmemt]
        · intro h
          rcases List.mem_append.mp h with h | h
          · exact hne (List.mem_cons_of_mem _ h)
          · simp at h; exact hid h.symm
        · simp at hc ⊢; omega
    · have hlc : c.length < MAX_PROCESSED_MESSAGES := Nat.lt_of_le_of_ne hlen hc
      have hnlt : ¬ MAX_PROCESSED_MESSAGES < c.length + 1 := by omega
      have hrec : recordMessage id c = c ++ [id] := by
        simp [recordMessage, setAdd, evictOldestIfOver, hmem, hnlt]
      rw [hrec]
      refine ⟨?_, ?_, ?_⟩
      · simp [List.nodup_append, hnd]
        intro h; exact hmem h
      · intro h
        rcases List.mem_append.mp h with h | h
        · exact hne h
        · simp at h; exact hid h.symm
      · simp; omega

/-- The guarded tracking block (`if (messageId) { add; evict }`) preserves
the same invariants, for an arbitrary possibly-absent id. -/
lemma trackProcessed_inv (mid : Option String) (c : List String)
    (hnd : c.Nodup) (hne : "" ∉ c)
    (hlen : c.length ≤ MAX_PROCESSED_MESSAGES) :
    (trackProcessed mid c).Nodup ∧ "" ∉ trackProcessed mid c ∧
      (trackProcessed mid c).length ≤ MAX_PROCESSED_MESSAGES := by
  cases mid with
  | none => simpa [trackProcessed, optTruthy] using ⟨hnd, hne, hlen⟩
  | some s =>
      by_cases hs : s = ""
      · simpa [trackProcessed, optTruthy, hs] using ⟨hnd, hne, hlen⟩
      · simpa [trackProcessed, optTruthy, hs] using
          recordMessage_inv s c hs hnd hne hlen

/-- Folding the tracking block over any delivery sequence preserves the
invariants. -/
lemma trackAll_inv (mids : List (Option String)) (c : List String)
    (hnd : c.Nodup) (hne : "" ∉ c)
    (hlen : c.length ≤ MAX_PROCESSED_MESSAGES) :
    (trackAll mids c).Nodup ∧ "" ∉ trackAll mids c ∧
      (trackAll mids c).length ≤ MAX_PROCESSED_MESSAGES := by
  induction mids generalizing c with
  | nil => exact ⟨hnd, hne, hlen⟩
  | cons m rest ih =>
      have h := trackProcessed_inv m c hnd hne hlen
      exact ih (trackProcessed m c) h.1 h.2.1 h.2.2

/-- C3: for every sequence of message-id insertions through the tracking
block of the `im.message.receive_v1` handler, after each insertion completes
the dedup cache holds at most `MAX_PROCESSED_MESSAGES` (5000) entries and
never holds two copies of the same identifier. -/
theorem dedup_cache_bounded_and_nodup (mids : List (Option String)) (n : Nat) :
    (trackAll (mids.take n) []).length ≤ MAX_PROCESSED_MESSAGES ∧
      (trackAll (mids.take n) []).Nodup := by
  have h := trackAll_inv (mids.take n) [] (by simp) (by simp) (by simp)
  exact ⟨h.2.2, h.1⟩

/-! FIFO eviction (C4). -/

/-- Recording a sequence of fresh, non-empty ids keeps exactly the most
recent `MAX_PROCESSED_MESSAGES` entries of the combined insertion order. -/
lemma recordAll_eq_drop (ids : List String) :
    ∀ c : List String, (c ++ ids).Nodup → "" ∉ c ++ ids →
      c.length ≤ MAX_PROCESSED_MESSAGES →
      recordAll ids c =
        (c ++ ids).drop ((c ++ ids).length - MAX_PROCESSED_MESSAGES) := by
  induction ids with
  | nil =>
      intro c _ _ hlen
      have h0 : c.length - MAX_PROCESSED_MESSAGES = 0 := by omega
      simp [recordAll, h0]
  | cons i rest ih =>
      intro c hnd hne hlen
      have hmem : i ∉ c := by
        intro hic
        rcases List.nodup_append.mp hnd with ⟨_, _, hdisj⟩
        exact hdisj hic (List.mem_cons_self i rest)
      have hstep : recordAll (i :: rest) c = recordAll rest (recordMessage i c) := rfl
      by_cases hc : c.length = MAX_PROCESSED_MESSAGES
      · match c, hnd, hne, hmem, hc with
        | hC :: tC, hnd, hne, hmem, hc =>
          have hHC : hC ≠ "" := by
            intro h
            exact hne (h ▸ List.mem_append_left _ (List.mem_cons_self hC tC))
          have hadd : setAdd i (hC :: tC) = hC :: (tC ++ [i]) := by
            simp [setAdd, hmem]
          have hlt : MAX_PROCESSED_MESSAGES < tC.length + 1 + 1 := by
            simp at hc; omega
          have hrec : recordMessage i (hC :: tC) = tC ++ [i] := by
            rw [recordMessage, hadd]
            simp [evictOldestIfOver, hlt, hHC]
          have e1 : (tC ++ [i]) ++ rest = tC ++ i :: rest := by simp
          have hnd2 : (hC :: (tC ++ i :: rest)).Nodup := by
            have h2 := hnd
            rw [List.cons_append] at h2
            exact h2
          have hnd' : ((tC ++ [i]) ++ rest).Nodup := by
            rw [e1]
            exact (List.nodup_cons.mp hnd2).2
          have hne' : "" ∉ (tC ++ [i]) ++ rest := by
            rw [e1]
            intro h
            apply hne
            rw [List.cons_append]
            exact List.mem_cons_of_mem hC h
          have hlen' : (tC ++ [i]).length ≤ MAX_PROCESSED_MESSAGES := by
            simp at hc ⊢; omega
          rw [hstep, hrec, ih (tC ++ [i]) hnd' hne' hlen', e1]
          have e2 : (hC :: tC) ++ i :: rest = hC :: (tC ++ i :: rest) := by simp
          rw [e2]
          have e3 : (hC :: (tC ++ i :: rest)).length - MAX_PROCESSED_MESSAGES
              = ((tC ++ i :: rest).length - MAX_PROCESSED_MESSAGES) + 1 := by
            simp at hc ⊢; omega
          rw [e3, List.drop_succ_cons]
      · have hlc : c.length < MAX_PROCESSED_MESSAGES := Nat.lt_of_le_of_ne hlen hc
        have hnlt : ¬ MAX_PROCESSED_MESSAGES < c.length + 1 := by omega
        have hrec : recordMessage i c = c ++ [i] := by
          simp [recordMessage, setAdd, evictOldestIfOver, hmem, hnlt]
        have e1 : (c ++ [i]) ++ rest = c ++ i :: rest := by simp
        have hlen' : (c ++ [i]).length ≤ MAX_PROCESSED_MESSAGES := by
          simp; omega
        rw [hstep, hrec, ih (c ++ [i]) (by rw [e1]; exact hnd) (by rw [e1]; exact hne) hlen', e1]

/-- C4: eviction is FIFO by insertion order — recording 5001 distinct
non-empty identifiers into an empty cache leaves exactly the last 5000: the
first identifier is absent and all later ones are present. -/
theorem eviction_fifo (ids : List String) (m : String)
    (hlen : ids.length = 5001) (hnd : ids.Nodup) (hne : "" ∉ ids)
    (hhd : ids.head? = some m) :
    recordAll ids [] = ids.drop 1 ∧ m ∉ recordAll ids [] ∧
      ids.drop 1 ⊆ recordAll ids [] := by
  have h := recordAll_eq_drop ids [] (by simpa) (by simpa) (by simp)
  simp only [List.nil_append] at h
  rw [hlen] at h
  have h1 : recordAll ids [] = ids.drop 1 := by
    simpa [MAX_PROCESSED_MESSAGES] using h
  refine ⟨h1, ?_, by rw [h1]; exact List.Subset.refl _⟩
  rw [h1]
  match ids, hnd, hhd with
  | a :: t, hnd, hhd =>
      have ham : a = m := by simpa using hhd
      subst ham
      simpa using (List.nodup_cons.mp hnd).1

/-! Concrete witness input for the FIFO eviction theorem. -/

/-- The string made of `n` copies of the character `a`. -/
def natStr (n : Nat) : String := String.mk (List.replicate n 'a')

/-- A list of 5001 pairwise-distinct non-empty message ids. -/
def fifoWitnessIds : List String := (List.range 5001).map (fun n => natStr (n + 1))

lemma natStr_inj {a b : Nat} (h : natStr a = natStr b) : a = b := by
  have h2 : List.replicate a 'a' = List.replicate b 'a' := congrArg String.data h
  have h3 := congrArg List.length h2
  simpa using h3

lemma fifoWitnessIds_length : fifoWitnessIds.length = 5001 := by
  simp [fifoWitnessIds]

lemma fifoWitnessIds_nodup : fifoWitnessIds.Nodup := by
  refine List.Nodup.map ?_ (List.nodup_range 5001)
  intro a b h
  exact Nat.succ_injective (natStr_inj h)

lemma fifoWitnessIds_no_empty : "" ∉ fifoWitnessIds := by
  intro h
  rcases List.mem_map.mp h with ⟨n, _, hn⟩
  have h2 := congrArg String.data hn
  simp [natStr] at h2

lemma fifoWitnessIds_head : fifoWitnessIds.head? = some (natStr 1) := by
  have h : List.range 5001 = 0 :: List.map Nat.succ (List.range 5000) :=
    List.range_succ_eq_map 5000
  rw [fifoWitnessIds, h]
  simp

/-- Witness for the FIFO eviction theorem at a concrete list of 5001
distinct non-empty identifiers. -/
theorem eviction_fifo_witness :
    (fifoWitnessIds.length = 5001 ∧ fifoWitnessIds.Nodup ∧
      "" ∉ fifoWitnessIds ∧ fifoWitnessIds.head? = some (natStr 1)) ∧
    (recordAll fifoWitnessIds [] = fifoWitnessIds.drop 1 ∧
      natStr 1 ∉ recordAll fifoWitnessIds [] ∧
      fifoWitnessIds.drop 1 ⊆ recordAll fifoWitnessIds []) :=
  ⟨⟨fifoWitnessIds_length, fifoWitnessIds_nodup, fifoWitnessIds_no_empty,
      fifoWitnessIds_head⟩,
    eviction_fifo fifoWitnessIds (natStr 1) fifoWitnessIds_length
      fifoWitnessIds_nodup fifoWitnessIds_no_empty fifoWitnessIds_head⟩

/-! Dispatch-layer claims. -/

/-- Appending a fresh id always leaves that id in the cache: capacity
eviction removes the oldest entry, never the one just inserted. -/
lemma mem_recordMessage_self (id : String) (c : List String) (h : id ∉ c) :
    id ∈ recordMessage id c := by
  rw [recordMessage, setAdd, if_neg h]
  simp only [evictOldestIfOver]
  by_cases hlt : MAX_PROCESSED_MESSAGES < (c ++ [id]).length
  · rw [if_pos hlt]
    cases c with
    | nil =>
        exfalso
        simp [MAX_PROCESSED_MESSAGES] at hlt
    | cons h0 t =>
        simp only [List.cons_append]
        by_cases h0e : h0 = "" <;> simp [h0e]
  · rw [if_neg hlt]
    exact List.mem_append_right _ (by simp)

/-- C5: delivering the same non-empty message id twice in one session
invokes the external message handler exactly once; the second delivery is
caught by the dedup cache and produces only a skip-log entry. -/
theorem duplicate_invokes_handler_once (env : DispatchEnv) (id : String)
    (c : List String) (hid : id ≠ "") (hmem : id ∉ c) :
    invocationCount (processEvents env
      [.messageReceive ⟨some id⟩, .messageReceive ⟨some id⟩] c).2 = 1 ∧
    dispatchMessageReceived env ⟨some id⟩
        (dispatchMessageReceived env ⟨some id⟩ c).1 =
      ((dispatchMessageReceived env ⟨some id⟩ c).1,
        [.log ("Gateway: skipping duplicate message " ++ id)]) := by
  have hmem2 : id ∈ recordMessage id c := mem_recordMessage_self id c hmem
  have hidb : (id != "") = true := by simpa using hid
  constructor
  · simp [processEvents, dispatchEvent, dispatchMessageReceived, optTruthy,
      trackProcessed, hidb, hmem, hmem2, invocationCount, invocations]
  · simp [dispatchMessageReceived, optTruthy, trackProcessed, hidb, hmem, hmem2]

/-- Witness for the duplicate-suppression theorem at a concrete id and
empty cache. -/
theorem duplicate_invokes_handler_once_witness :
    (("a" : String) ≠ "" ∧ ("a" : String) ∉ ([] : List String)) ∧
    (invocationCount (processEvents ⟨fun _ => false⟩
      [.messageReceive ⟨some "a"⟩, .messageReceive ⟨some "a"⟩] []).2 = 1 ∧
    dispatchMessageReceived ⟨fun _ => false⟩ ⟨some "a"⟩
        (dispatchMessageReceived ⟨fun _ => false⟩ ⟨some "a"⟩ []).1 =
      ((dispatchMessageReceived ⟨fun _ => false⟩ ⟨some "a"⟩ []).1,
        [.log ("Gateway: skipping duplicate message " ++ "a")])) :=
  ⟨⟨by decide, by decide⟩,
    duplicate_invokes_handler_once ⟨fun _ => false⟩ "a" [] (by decide) (by decide)⟩

/-- C6: a message-received event without a message identifier bypasses the
dedup cache entirely — two such events are both dispatched to the handler,
nothing is recorded, and the cache is unchanged. -/
theorem missing_id_bypasses_dedup (env : DispatchEnv) (c : List String) :
    (processEvents env
      [.messageReceive ⟨none⟩, .messageReceive ⟨none⟩] c).1 = c ∧
    invocationCount (processEvents env
      [.messageReceive ⟨none⟩, .messageReceive ⟨none⟩] c).2 = 2 ∧
    recordedCount (processEvents env
      [.messageReceive ⟨none⟩, .messageReceive ⟨none⟩] c).2 = 0 := by
  cases hf : env.handlerFails ⟨none⟩ <;>
    refine ⟨?_, ?_, ?_⟩ <;>
      simp [processEvents, dispatchEvent, dispatchMessageReceived, optTruthy,
        trackProcessed, invocationCount, invocations, recordedCount, hf]

/-- The cache evolution of one dispatch does not depend on whether handlers
throw. -/
lemma dispatchEvent_fst_env (env env' : DispatchEnv) (ev : GwEvent)
    (c : List String) :
    (dispatchEvent env ev c).1 = (dispatchEvent env' ev c).1 := by
  cases ev with
  | messageReceive e =>
      rw [dispatchEvent, dispatchEvent, dispatchMessageReceived,
        dispatchMessageReceived]
      split <;> simp
  | messageRead => rfl
  | botAdded cid => rfl
  | botRemoved cid => rfl

/-- The sequence of handler invocations of one dispatch does not depend on
whether handlers throw. -/
lemma dispatchEvent_invocations_env (env env' : DispatchEnv) (ev : GwEvent)
    (c : List String) :
    invocations (dispatchEvent env ev c).2 =
      invocations (dispatchEvent env' ev c).2 := by
  cases ev with
  | messageReceive e =>
      rw [dispatchEvent, dispatchEvent, dispatchMessageReceived,
        dispatchMessageReceived]
      split
      · rfl
      · cases hf : env.handlerFails e <;> cases hf' : env'.handlerFails e <;>
          simp [invocations, List.filterMap_append]
  | messageRead => rfl
  | botAdded cid => rfl
  | botRemoved cid => rfl

/-- C9: handler failures are contained inside each dispatch-table entry.
For any two failure environments (in particular, one where the handler
throws for event A and one where nothing throws), delivering the same event
sequence yields the same cache evolution and the same sequence of handler
invocations: a handler that throws for one event never prevents a later
event of any registered type from being dispatched and processed. -/
theorem handler_failure_isolated (env env' : DispatchEnv) (evs : List GwEvent)
    (c : List String) :
    (processEvents env evs c).1 = (processEvents env' evs c).1 ∧
    invocations (processEvents env evs c).2 =
      invocations (processEvents env' evs c).2 := by
  induction evs generalizing c with
  | nil => exact ⟨rfl, rfl⟩
  | cons ev rest ih =>
      have h1 := dispatchEvent_fst_env env env' ev c
      have h2 := dispatchEvent_invocations_env env env' ev c
      have ih' := ih (dispatchEvent env ev c).1
      constructor
      · show (processEvents env rest (dispatchEvent env ev c).1).1 =
          (processEvents env' rest (dispatchEvent env' ev c).1).1
        rw [← h1]
        exact ih'.1
      · show invocations ((dispatchEvent env ev c).2 ++
            (processEvents env rest (dispatchEvent env ev c).1).2) =
          invocations ((dispatchEvent env' ev c).2 ++
            (processEvents env' rest (dispatchEvent env' ev c).1).2)
        rw [invocations, invocations, List.filterMap_append, List.filterMap_append,
          ← h1]
        exact congrArg₂ (· ++ ·) h2 ih'.2

/-- C10: for a message event carrying a non-empty id, the id is recorded in
the dedup cache before the handler is invoked (the `recorded` action
precedes the `invokeHandler` action), so even when the handler throws the id
stays in the cache and a redelivery of the same id within the session is
suppressed without invoking the handler again. -/
theorem recorded_despite_handler_failure (env : DispatchEnv) (id : String)
    (c : List String) (hid : id ≠ "") (hmem : id ∉ c)
    (hf : env.handlerFails ⟨some id⟩ = true) :
    dispatchMessageReceived env ⟨some id⟩ c =
      (recordMessage id c,
        [.recorded id, .invokeHandler ⟨some id⟩,
          .errorLog "Gateway: error handling message"]) ∧
    id ∈ (dispatchMessageReceived env ⟨some id⟩ c).1 ∧
    invocationCount (dispatchMessageReceived env ⟨some id⟩
      (dispatchMessageReceived env ⟨some id⟩ c).1).2 = 0 := by
  have hmem2 : id ∈ recordMessage id c := mem_recordMessage_self id c hmem
  have hidb : (id != "") = true := by simpa using hid
  refine ⟨?_, ?_, ?_⟩
  · simp [dispatchMessageReceived, optTruthy, trackProcessed, hidb, hmem, hf]
  · simp [dispatchMessageReceived, optTruthy, trackProcessed, hidb, hmem, hmem2]
  · simp [dispatchMessageReceived, optTruthy, trackProcessed, hidb, hmem, hmem2,
      invocationCount, invocations]

/-- Witness for the record-despite-failure theorem: a concrete id, empty
cache, and an environment whose handler always throws. -/
theorem recorded_despite_handler_failure_witness :
    (("a" : String) ≠ "" ∧ ("a" : String) ∉ ([] : List String) ∧
      (DispatchEnv.mk fun _ => true).handlerFails ⟨some "a"⟩ = true) ∧
    (dispatchMessageReceived ⟨fun _ => true⟩ ⟨some "a"⟩ [] =
      (recordMessage "a" [],
        [.recorded "a", .invokeHandler ⟨some "a"⟩,
          .errorLog "Gateway: error handling message"]) ∧
    ("a" : String) ∈ (dispatchMessageReceived ⟨fun _ => true⟩ ⟨some "a"⟩ []).1 ∧
    invocationCount (dispatchMessageReceived ⟨fun _ => true⟩ ⟨some "a"⟩
      (dispatchMessageReceived ⟨fun _ => true⟩ ⟨some "a"⟩ []).1).2 = 0) :=
  ⟨⟨by decide, by decide, by decide⟩,
    recorded_despite_handler_failure ⟨fun _ => true⟩ "a" []
      (by decide) (by decide) (by decide)⟩

/-! Lifecycle claims. -/

/-- A start environment with a present config and an already-aborted signal,
used to examine the cancellation-before-start behaviour. -/
def abortedEnv : StartEnv :=
  { feishuCfg := some ⟨"websocket"⟩, probe := ⟨false, none⟩, aborted := true,
    startThrows := false, startError := "" }

/-- C1 counterexample: calling `startGateway` with a present config and an
already-aborted signal does invoke both the connection prober and the
connection factory — the aborted-signal check happens only inside the
returned promise, after `probeConnection` and `createWsClient` have run —
refuting the claim that neither is ever invoked. -/
theorem aborted_start_still_probes :
    (startGateway (initialState Unit) abortedEnv).2.2.probeCalled = true ∧
    (startGateway (initialState Unit) abortedEnv).2.2.factoryCalled = true := by
  decide

/-- C1 amended: with a present config and an already-aborted signal,
`startGateway` resolves successfully and never calls the transport's
`start`; the prober and the connection factory, however, are both invoked
before the abort check. -/
theorem aborted_start_resolves {H : Type} (s : GatewayState H) (env : StartEnv)
    (hcfg : env.feishuCfg.isSome = true) (hab : env.aborted = true) :
    (startGateway s env).2.1 = .resolved ∧
    (startGateway s env).2.2.wsStartCalled = false ∧
    (startGateway s env).2.2.probeCalled = true ∧
    (startGateway s env).2.2.factoryCalled = true := by
  match env, hcfg with
  | ⟨some cfg, probe, aborted, st, se⟩, _ =>
      subst hab
      simp [startGateway]

/-- Witness for the amended cancellation-before-start theorem. -/
theorem aborted_start_resolves_witness :
    (abortedEnv.feishuCfg.isSome = true ∧ abortedEnv.aborted = true) ∧
    ((startGateway (initialState Unit) abortedEnv).2.1 = .resolved ∧
      (startGateway (initialState Unit) abortedEnv).2.2.wsStartCalled = false ∧
      (startGateway (initialState Unit) abortedEnv).2.2.probeCalled = true ∧
      (startGateway (initialState Unit) abortedEnv).2.2.factoryCalled = true) :=
  ⟨⟨by decide, by decide⟩,
    aborted_start_resolves (initialState Unit) abortedEnv (by decide) (by decide)⟩

/-- A start environment whose config carries a non-websocket connection
mode; the connection succeeds and nothing is aborted. -/
def webhookEnv : StartEnv :=
  { feishuCfg := some ⟨"webhook"⟩, probe := ⟨false, none⟩, aborted := false,
    startThrows := false, startError := "" }

/-- C2 counterexample: with a configuration whose mode is `"webhook"` (not
the websocket streaming mode), `startGateway` still calls the connection
factory and does not resolve as a no-op — its promise stays pending in the
running state — refuting both parts of the claim. -/
theorem webhook_mode_still_connects :
    (startGateway (initialState Unit) webhookEnv).2.2.factoryCalled = true ∧
    (startGateway (initialState Unit) webhookEnv).2.1 ≠ .resolved := by
  decide

/-- C2 amended: `startGateway` never inspects the configured connection
mode. For every present configuration it invokes the connection factory,
and its entire behaviour is unchanged when the mode is replaced by any
other mode; there is no unsupported-mode no-op exit. -/
theorem mode_never_checked {H : Type} (s : GatewayState H) (env : StartEnv)
    (cfg : Cfg) (hcfg : env.feishuCfg = some cfg) :
    (startGateway s env).2.2.factoryCalled = true ∧
    ∀ m : String,
      startGateway s { env with feishuCfg := some ⟨m⟩ } =
        startGateway s { env with feishuCfg := some cfg } := by
  match env, hcfg with
  | ⟨some c0, probe, aborted, st, se⟩, hcfg =>
      obtain rfl : c0 = cfg := by injection hcfg
      refine ⟨?_, fun m => rfl⟩
      cases aborted <;> cases st <;> simp [startGateway]

/-- Witness for the mode-never-checked theorem. -/
theorem mode_never_checked_witness :
    (webhookEnv.feishuCfg = some ⟨"webhook"⟩) ∧
    ((startGateway (initialState Unit) webhookEnv).2.2.factoryCalled = true ∧
      ∀ m : String,
        startGateway (initialState Unit) { webhookEnv with feishuCfg := some ⟨m⟩ } =
          startGateway (initialState Unit) { webhookEnv with feishuCfg := some ⟨"webhook"⟩ }) :=
  ⟨by decide,
    mode_never_checked (initialState Unit) webhookEnv ⟨"webhook"⟩ (by decide)⟩

/-- C7: `startGateway` rejects exactly when the channel configuration is
absent or when (config present, not pre-aborted) the transport's synchronous
`start` call throws.  A missing config rejects with the message
`"Feishu not configured"` before any state mutation, and clean cancellation
resolves rather than rejects. -/
theorem start_rejects_iff {H : Type} (s : GatewayState H) (env : StartEnv) :
    (isRejected (startGateway s env).2.1 =
      (env.feishuCfg.isNone ||
        (env.feishuCfg.isSome && !env.aborted && env.startThrows))) ∧
    (env.feishuCfg = none →
      (startGateway s env).2.1 = .rejected "Feishu not configured" ∧
        (startGateway s env).1 = s) ∧
    (env.feishuCfg.isSome = true → env.aborted = true →
      (startGateway s env).2.1 = .resolved) := by
  match env with
  | ⟨none, probe, aborted, st, se⟩ =>
      refine ⟨?_, fun _ => ⟨rfl, rfl⟩, fun h _ => by simp at h⟩
      simp [startGateway, isRejected]
  | ⟨some cfg, probe, aborted, st, se⟩ =>
      refine ⟨?_, fun h => by simp at h, fun _ hab => ?_⟩
      · cases aborted <;> cases st <;> simp [startGateway, isRejected]
      · simp at hab
        subst hab
        simp [startGateway]

/-- Witness for the rejection characterisation: a missing config rejects
with the configuration error and leaves the state untouched, and an aborted
start with a present config resolves. -/
theorem start_rejects_iff_witness :
    ((none : Option Cfg) = none ∧ abortedEnv.feishuCfg.isSome = true ∧
      abortedEnv.aborted = true) ∧
    ((startGateway (initialState Unit)
        ⟨none, ⟨false, none⟩, false, false, ""⟩).2.1 =
          .rejected "Feishu not configured" ∧
      (startGateway (initialState Unit)
        ⟨none, ⟨false, none⟩, false, false, ""⟩).1 = initialState Unit) ∧
    (startGateway (initialState Unit) abortedEnv).2.1 = .resolved :=
  ⟨⟨rfl, by decide, by decide⟩,
    (start_rejects_iff (initialState Unit)
      ⟨none, ⟨false, none⟩, false, false, ""⟩).2.1 rfl,
    (start_rejects_iff (initialState Unit) abortedEnv).2.2 (by decide) (by decide)⟩

/-- C8: `stopGateway` is a synchronous total function and is idempotent:
from any process state it leaves the bot identity absent (observable via
`getBotOpenId`), the connection handle null, and the history store and
dedup cache empty, and a second consecutive call changes nothing. -/
theorem stop_clears_and_idempotent {H : Type} (s : GatewayState H) :
    getBotOpenId (stopGateway s) = none ∧
    (stopGateway s).wsClient = none ∧
    (stopGateway s).chatHistories = [] ∧
    (stopGateway s).processedMessages = [] ∧
    stopGateway (stopGateway s) = stopGateway s :=
  ⟨rfl, rfl, rfl, rfl, rfl⟩

end FeishuGateway
